import Mathlib

/-!
# Nexus Protocol Bridge — verification of the spec against the code

A shallow embedding of `src/nexus_bridge.py` (FastAPI handlers over a
Supabase store).  The store is modelled as three in-memory tables (lists
of rows); each Supabase call becomes a pure list operation with the
library's sequential semantics:

* `table(..).select(..).eq(col, v).execute()` — filter the table on the
  column, the handler then reads `data[0]`, i.e. the first matching row;
* `table(..).update(payload).eq(col, v).execute()` — set the payload
  fields on every matching row;
* `table(..).delete().eq(col, v).execute()` — remove every matching row,
  returning the removed rows as `data`;
* `table(..).insert(row).execute()` — append the row.

HTTP handlers become state-passing functions `Store → args → Store × HResult β`:
a `raise HTTPException(code, detail)` becomes `(current store, .err code detail)`
(mutations made before the raise persist, as they do against the real store),
a `return body` becomes `(store, .ok body)`.

Python integers are `Int`; a Python `x or 0` / `if x is None: x = 0` read of a
possibly-NULL column is the identity on an `Int`-valued model.  The
`hashlib.sha256` hashing inside `_auth_user_id` is kept abstract: handlers
receive the already-hashed credential and authentication is the source's
lookup of that hash in the `users` table.  Nondeterministic inputs of the
source (the `uuid.uuid4()` token, `datetime.now()`) are explicit parameters.
-/

namespace Nexus

/-- `COST = 10` in `nexus_bridge.py`. -/
def COST : Int := 10

/-- `CHALLENGE_STAKE = 1` in `nexus_bridge.py`. -/
def CHALLENGE_STAKE : Int := 1

/-- `SELLER_PENALTY_VALID = 5` in `nexus_bridge.py`. -/
def SELLER_PENALTY_VALID : Int := 5

/-- A row of the `users` table: `user_id`, `api_key_hash`, and the four
integer columns read and written by the bridge. -/
structure User where
  user_id : String
  api_key_hash : String
  balance : Int
  escrow_balance : Int
  total_earned : Int
  reputation : Int
deriving Repr, DecidableEq

/-- A row of the `tokens` table.  `request_access` inserts exactly the three
columns `token`, `user_id` (the buyer) and `seller_id` — there is no
`expires_at`, `amount` or `idempotency_key` column in this revision. -/
structure Token where
  token : String
  user_id : String
  seller_id : String
deriving Repr, DecidableEq

/-- A row of the `transactions` table, as inserted by `verify_token` and
mutated by the challenge endpoints. -/
structure Txn where
  buyer_id : String
  seller_id : String
  amount : Int
  token : String
  challenged : Bool
  challenge_status : Option String
  challenge_stake : Int
  challenge_reason : Option String
  challenge_resolved_at : Option String
deriving Repr, DecidableEq

/-- The Supabase-backed state visible to the bridge. -/
structure Store where
  users : List User
  tokens : List Token
  transactions : List Txn
deriving Repr, DecidableEq

/-- Outcome of a handler: a body, or an `HTTPException(status_code, detail)`. -/
inductive HResult (β : Type) where
  | ok : β → HResult β
  | err : Nat → String → HResult β
deriving Repr, DecidableEq

/-- `resp.data[0]` after `.select(..).eq("user_id", uid)` — first matching row. -/
def findUser (users : List User) (uid : String) : Option User :=
  users.find? (fun u => u.user_id == uid)

/-- `.update(payload).eq("user_id", uid)` — apply the payload to every matching row. -/
def updateUser (users : List User) (uid : String) (f : User → User) : List User :=
  users.map (fun u => if u.user_id == uid then f u else u)

/-- `resp.data[0]` after `.select(..).eq("token", tk)` on `tokens`. -/
def findToken (tokens : List Token) (tk : String) : Option Token :=
  tokens.find? (fun t => t.token == tk)

/-- `.delete().eq("token", tk)` on `tokens` — rows that remain. -/
def deleteToken (tokens : List Token) (tk : String) : List Token :=
  tokens.filter (fun t => !(t.token == tk))

/-- `resp.data[0]` after `.select("*").eq("token", tk)` on `transactions`. -/
def findTxn (txs : List Txn) (tk : String) : Option Txn :=
  txs.find? (fun t => t.token == tk)

/-- `.update(payload).eq("token", tk)` on `transactions`. -/
def updateTxn (txs : List Txn) (tk : String) (f : Txn → Txn) : List Txn :=
  txs.map (fun t => if t.token == tk then f t else t)

/-- `_require(value, header_name)`: `if not value: raise 400`.  A missing
header and an empty header are both falsy. -/
def require_value (value : Option String) (header_name : String) : HResult String :=
  match value with
  | none => .err 400 ("Missing " ++ header_name ++ " header")
  | some v =>
    if v = "" then .err 400 ("Missing " ++ header_name ++ " header")
    else .ok v

/-- `_auth_user_id`: look the (hashed) credential up in `users.api_key_hash`;
401 when no row matches, else `data[0]["user_id"]`. -/
def auth_user_id (s : Store) (keyHash : String) : HResult String :=
  match s.users.find? (fun u => u.api_key_hash == keyHash) with
  | none => .err 401 "Invalid API Key"
  | some u => .ok u.user_id

/-- `_require_admin`: require the `x-admin-key` header, require the
`ADMIN_KEY` environment value to be set and non-empty, compare. -/
def require_admin (x_admin_key : Option String) (env_admin_key : Option String) :
    HResult Unit :=
  match require_value x_admin_key "x-admin-key" with
  | .err c d => .err c d
  | .ok admin_key =>
    match env_admin_key with
    | none => .err 500 "ADMIN_KEY not set on server"
    | some expected =>
      if expected = "" then .err 500 "ADMIN_KEY not set on server"
      else if admin_key ≠ expected then .err 403 "Forbidden"
      else .ok ()

/-- `POST /request_access` (`request_access` in `nexus_bridge.py`).

The request model `BuyRequest` carries only `seller_id`; the handler reads
only the `x-api-key` header.  A `ttl_seconds` body field or an
`x-idempotency-key` header sent by a client (the repository's own tests send
both) is not an input of the handler.  `newToken` is the `str(uuid.uuid4())`
drawn inside the handler. -/
def request_access (s : Store) (x_api_key : Option String) (seller_id : String)
    (newToken : String) : Store × HResult String :=
  match require_value x_api_key "x-api-key" with
  | .err c d => (s, .err c d)
  | .ok key =>
  match auth_user_id s key with
  | .err c d => (s, .err c d)
  | .ok buyer_id =>
  match findUser s.users buyer_id with
  | none => (s, .err 401 "Invalid Buyer")
  | some buyer =>
    let balance := buyer.balance
    let escrow := buyer.escrow_balance
    if balance < COST then (s, .err 402 "Insufficient Balance")
    else
      -- Lock funds
      let users1 := updateUser s.users buyer_id
        (fun u => { u with balance := balance - COST, escrow_balance := escrow + COST })
      let s1 : Store := { s with users := users1 }
      -- Insert the token row: exactly token / user_id / seller_id
      let s2 : Store := { s1 with tokens := s1.tokens ++ [{ token := newToken, user_id := buyer_id, seller_id := seller_id }] }
      (s2, .ok newToken)

/-- The JSON body returned by `verify_token`.  The source returns either
`{"valid": False}` or `{"valid": True, "buyer_id": ...}`; absent JSON keys
are `none` (in particular this source revision never emits an `"error"` key). -/
structure VerifyBody where
  valid : Bool
  buyer_id : Option String := none
  error : Option String := none
deriving Repr, DecidableEq

/-- `GET /verify/{token}` (`verify_token` in `nexus_bridge.py`):
seller-authenticated redemption — burn the token row, deduct the buyer's
escrow (saturating at 0), pay the seller (`total_earned + COST`,
`reputation + 1`), append a `transactions` row. -/
def verify_token (s : Store) (token : String) (x_seller_api_key : Option String) :
    Store × HResult VerifyBody :=
  match require_value x_seller_api_key "x-seller-api-key" with
  | .err c d => (s, .err c d)
  | .ok key =>
  match auth_user_id s key with
  | .err c d => (s, .err c d)
  | .ok seller_id =>
  match findToken s.tokens token with
  | none => (s, .ok { valid := false })
  | some row =>
    let buyer_id := row.user_id
    let intended_seller_id := row.seller_id
    if seller_id ≠ intended_seller_id then
      (s, .err 403 "Seller not authorized for this token")
    else
      -- Burn token first
      let deleted := s.tokens.filter (fun t => t.token == token)
      let s1 : Store := { s with tokens := deleteToken s.tokens token }
      if deleted.length = 0 then (s1, .ok { valid := false })
      else
        -- Deduct buyer escrow
        let buyer_escrow := match findUser s1.users buyer_id with
          | some u => u.escrow_balance
          | none => 0
        let users2 := updateUser s1.users buyer_id
          (fun u => { u with escrow_balance := max 0 (buyer_escrow - COST) })
        let s2 : Store := { s1 with users := users2 }
        -- Pay seller + rep +1
        match findUser s2.users intended_seller_id with
        | none => (s2, .err 500 "Seller not found in users table")
        | some seller =>
          let earned := seller.total_earned
          let rep := seller.reputation
          let users3 := updateUser s2.users intended_seller_id
            (fun u => { u with total_earned := earned + COST, reputation := rep + 1 })
          let s3 : Store := { s2 with users := users3 }
          -- Record transaction (challenge fields default)
          let settledRow : Txn :=
            { buyer_id := buyer_id, seller_id := intended_seller_id, amount := COST,
              token := token, challenged := false, challenge_status := none,
              challenge_stake := 0, challenge_reason := none,
              challenge_resolved_at := none }
          let s4 : Store := { s3 with transactions := s3.transactions ++ [settledRow] }
          (s4, .ok { valid := true, buyer_id := some buyer_id })

/-- Body of a successful `POST /challenge`. -/
structure ChallengeOpenBody where
  status : String
  stake : Int
deriving Repr, DecidableEq

/-- `POST /challenge` (`open_challenge`): the buyer of a settled transaction
stakes `CHALLENGE_STAKE` and marks the transaction's challenge pending. -/
def open_challenge (s : Store) (x_api_key : Option String) (req_token : String)
    (req_reason : Option String) : Store × HResult ChallengeOpenBody :=
  match require_value x_api_key "x-api-key" with
  | .err c d => (s, .err c d)
  | .ok key =>
  match auth_user_id s key with
  | .err c d => (s, .err c d)
  | .ok buyer_id =>
  match findTxn s.transactions req_token with
  | none => (s, .err 404 "Transaction not found")
  | some tx =>
    if tx.buyer_id ≠ buyer_id then (s, .err 403 "Not your transaction")
    else if tx.challenged then (s, .err 400 "Already challenged")
    else
      match findUser s.users buyer_id with
      | none => (s, .err 401 "Invalid Buyer")
      | some buyer =>
        let balance := buyer.balance
        if balance < CHALLENGE_STAKE then
          (s, .err 402 "Insufficient balance to stake a challenge")
        else
          let users1 := updateUser s.users buyer_id
            (fun u => { u with balance := balance - CHALLENGE_STAKE })
          let s1 : Store := { s with users := users1 }
          let txs1 := updateTxn s1.transactions req_token
            (fun t => { t with challenged := true, challenge_status := some "pending",
                               challenge_stake := CHALLENGE_STAKE, challenge_reason := req_reason })
          let s2 : Store := { s1 with transactions := txs1 }
          (s2, .ok { status := "challenge_opened", stake := CHALLENGE_STAKE })

/-- Body of a successful `POST /resolve_challenge`. -/
structure ResolveBody where
  status : String
  outcome : String
deriving Repr, DecidableEq

/-- `POST /resolve_challenge` (`resolve_challenge`): admin-only resolution of
a pending challenge.  `"valid"`: seller reputation drops by
`SELLER_PENALTY_VALID` (floored at 0) and the stake is refunded to the buyer;
`"invalid"`: only the status changes.  `resolved_at` is the
`datetime.now(timezone.utc).isoformat()` drawn inside the handler. -/
def resolve_challenge (s : Store) (x_admin_key : Option String)
    (env_admin_key : Option String) (req_token : String) (req_outcome : String)
    (resolved_at : String) : Store × HResult ResolveBody :=
  match require_admin x_admin_key env_admin_key with
  | .err c d => (s, .err c d)
  | .ok _ =>
  let outcome := req_outcome.trim.toLower
  if outcome = "valid" ∨ outcome = "invalid" then
    match findTxn s.transactions req_token with
    | none => (s, .err 404 "Transaction not found")
    | some tx =>
      if tx.challenged = false ∨ tx.challenge_status ≠ some "pending" then
        (s, .err 400 "Challenge is not pending")
      else
        let buyer_id := tx.buyer_id
        let seller_id := tx.seller_id
        let stake := tx.challenge_stake
        if outcome = "valid" then
          -- 1) Penalize seller rep (floor at 0)
          let rep := match findUser s.users seller_id with
            | some u => u.reputation
            | none => 0
          let new_rep := max 0 (rep - SELLER_PENALTY_VALID)
          let users1 := updateUser s.users seller_id (fun u => { u with reputation := new_rep })
          let s1 : Store := { s with users := users1 }
          -- 2) Refund buyer stake
          let s2 : Store :=
            if stake > 0 then
              let bal := match findUser s1.users buyer_id with
                | some u => u.balance
                | none => 0
              let usersR := updateUser s1.users buyer_id (fun u => { u with balance := bal + stake })
              { s1 with users := usersR }
            else s1
          -- 3) Mark resolved
          let txs1 := updateTxn s2.transactions req_token
            (fun t => { t with challenge_status := some "valid",
                               challenge_resolved_at := some resolved_at })
          let s3 : Store := { s2 with transactions := txs1 }
          (s3, .ok { status := "resolved", outcome := "valid" })
        else
          let txs1 := updateTxn s.transactions req_token
            (fun t => { t with challenge_status := some "invalid",
                               challenge_resolved_at := some resolved_at })
          let s1 : Store := { s with transactions := txs1 }
          (s1, .ok { status := "resolved", outcome := "invalid" })
  else (s, .err 400 "Outcome must be 'valid' or 'invalid'")

/-- The routes registered on the FastAPI `app` in `nexus_bridge.py`:
the decorators `@app.get("/")`, `@app.post("/request_access")`,
`@app.get("/verify/{token}")`, `@app.post("/challenge")`,
`@app.post("/resolve_challenge")` — and no others. -/
def appRoutes : List (String × String) :=
  [("GET", "/"), ("POST", "/request_access"), ("GET", "/verify/{token}"),
   ("POST", "/challenge"), ("POST", "/resolve_challenge")]

/-! ## Observers on the store -/

/-- The buyer's spendable balance as the bridge reads it: the first `users`
row with this `user_id`, and `0` when no row matches (the code's `x or 0`). -/
def userBalance (s : Store) (uid : String) : Int :=
  ((findUser s.users uid).map User.balance).getD 0

/-- First-row read of `escrow_balance`, `0` when absent. -/
def userEscrow (s : Store) (uid : String) : Int :=
  ((findUser s.users uid).map User.escrow_balance).getD 0

/-- First-row read of `total_earned`, `0` when absent. -/
def userEarned (s : Store) (uid : String) : Int :=
  ((findUser s.users uid).map User.total_earned).getD 0

/-- First-row read of `reputation`, `0` when absent. -/
def userRep (s : Store) (uid : String) : Int :=
  ((findUser s.users uid).map User.reputation).getD 0

/-- A token is live iff a `tokens` row with that `token` value exists. -/
def tokenLive (s : Store) (tk : String) : Bool :=
  (findToken s.tokens tk).isSome

/-- Sum of the `amount` columns of the buyer's `transactions` rows. -/
def ledgerSum (s : Store) (uid : String) : Int :=
  ((s.transactions.filter (fun t => t.buyer_id == uid)).map Txn.amount).sum

/-- The per-buyer conserved quantity:
`balance + escrow_balance + (sum of the buyer's settled ledger amounts)`. -/
def conservedQty (s : Store) (uid : String) : Int :=
  userBalance s uid + userEscrow s uid + ledgerSum s uid

/-- Number of `transactions` rows recorded for a given token id. -/
def txCount (s : Store) (tk : String) : Nat :=
  (s.transactions.filter (fun t => t.token == tk)).length

/-- Whether a `verify_token` response is the settled `valid: true` body. -/
def verifyValid : HResult VerifyBody → Bool
  | .ok b => b.valid
  | .err _ _ => false

/-- Escrow the store still holds for a buyer's live tokens (each token of
this revision escrows exactly `COST`). -/
def escrowHeld (s : Store) (uid : String) : Int :=
  COST * ((s.tokens.filter (fun t => t.user_id == uid)).length : Int)

/-- Spec invariant 2 (escrow backing): every buyer with a live token has
escrow at least covering the live tokens' amounts. -/
def EscrowBacked (s : Store) : Prop :=
  ∀ t ∈ s.tokens, escrowHeld s t.user_id ≤ userEscrow s t.user_id

/-- Spec invariant 3 (no negative pools) over every `users` row. -/
def NonNegStore (s : Store) : Prop :=
  ∀ u ∈ s.users, 0 ≤ u.balance ∧ 0 ≤ u.escrow_balance ∧
    0 ≤ u.total_earned ∧ 0 ≤ u.reputation

/-! ## Helper lemmas on the store primitives -/

theorem findUser_updateUser (users : List User) (uid B : String) (f : User → User)
    (hf : ∀ u, (f u).user_id = u.user_id) :
    findUser (updateUser users uid f) B =
      (findUser users B).map (fun u => if u.user_id == uid then f u else u) := by
  unfold findUser updateUser
  rw [List.find?_map]
  have hp : ((fun u : User => u.user_id == B) ∘
      (fun u => if u.user_id == uid then f u else u)) = (fun u => u.user_id == B) := by
    funext u
    by_cases h : u.user_id == uid
    · simp [Function.comp, h, hf]
    · simp [Function.comp, h]
  rw [hp]

theorem findUser_exists_of_auth (s : Store) (kh uid : String)
    (h : auth_user_id s kh = .ok uid) : ∃ u, findUser s.users uid = some u := by
  unfold auth_user_id at h
  rcases hf : s.users.find? (fun u => u.api_key_hash == kh) with _ | u
  · rw [hf] at h; exact absurd h (by simp)
  · rw [hf] at h
    have huid : u.user_id = uid := by
      simpa using congrArg (fun r => match r with | .ok v => v | .err _ _ => uid) h
    have hmem : u ∈ s.users := List.mem_of_find?_eq_some hf
    have : (s.users.find? (fun v => v.user_id == uid)).isSome := by
      rw [List.find?_isSome]
      exact ⟨u, hmem, by simp [huid]⟩
    rcases Option.isSome_iff_exists.mp this with ⟨v, hv⟩
    exact ⟨v, hv⟩

theorem find?_user_id_eq {users : List User} {B : String} {u : User}
    (h : findUser users B = some u) : u.user_id = B := by
  unfold findUser at h
  have := List.find?_some h
  simpa using this

theorem findUser_update_self {users : List User} {uid : String} {f : User → User}
    (hf : ∀ u, (f u).user_id = u.user_id) {u : User}
    (h : findUser users uid = some u) :
    findUser (updateUser users uid f) uid = some (f u) := by
  rw [findUser_updateUser _ _ _ _ hf, h]
  have := find?_user_id_eq h
  simp [this]

theorem findUser_update_other {users : List User} {uid B : String} {f : User → User}
    (hf : ∀ u, (f u).user_id = u.user_id) (hne : B ≠ uid) :
    findUser (updateUser users uid f) B = findUser users B := by
  rw [findUser_updateUser _ _ _ _ hf]
  cases h : findUser users B with
  | none => simp
  | some u =>
    have := find?_user_id_eq h
    simp [this, hne]

theorem findUser_update_none {users : List User} {uid B : String} {f : User → User}
    (hf : ∀ u, (f u).user_id = u.user_id) (h : findUser users B = none) :
    findUser (updateUser users uid f) B = none := by
  rw [findUser_updateUser _ _ _ _ hf, h]
  rfl

/-! ## Concrete stores used as test fixtures -/

/-- One buyer `B` (credential hash `hb`) with balance 100 and nothing else. -/
def c1Store : Store :=
  { users := [{ user_id := "B", api_key_hash := "hb", balance := 100, escrow_balance := 0,
                total_earned := 0, reputation := 0 }],
    tokens := [], transactions := [] }

/-- One seller `S` (credential hash `hs`); no tokens, no transactions. -/
def c6Store : Store :=
  { users := [{ user_id := "S", api_key_hash := "hs", balance := 0, escrow_balance := 0,
                total_earned := 0, reputation := 0 }],
    tokens := [], transactions := [] }

/-- Buyer `B` with balance 5 — below `COST`. -/
def c8Store : Store :=
  { users := [{ user_id := "B", api_key_hash := "hb", balance := 5, escrow_balance := 0,
                total_earned := 0, reputation := 0 }],
    tokens := [], transactions := [] }

/-! ## C1 -/

/-- C1: mint is NOT idempotent on the idempotency key in this source.
`request_access` does not read an `x-idempotency-key` header at all
(`BuyRequest` carries only `seller_id`), so two calls by the same buyer
under the same idempotency key mint two distinct tokens and debit the
buyer twice: starting from balance 100, the calls return `tokA` then
`tokB` with `tokA ≠ tokB`, and leave balance 80 and escrow 20 with two
live token rows.  This contradicts the claim (and the repository's own
`test5_idempotency_torture.py`, whose strict pass conditions are exactly
one unique token and a single `COST` debit). -/
theorem c1_same_key_two_mints_double_debit :
    (request_access c1Store (some "hb") "S" "tokA").2 = .ok "tokA" ∧
    (request_access (request_access c1Store (some "hb") "S" "tokA").1
      (some "hb") "S" "tokB").2 = .ok "tokB" ∧
    ("tokA" : String) ≠ "tokB" ∧
    userBalance (request_access (request_access c1Store (some "hb") "S" "tokA").1
      (some "hb") "S" "tokB").1 "B" = 80 ∧
    userEscrow (request_access (request_access c1Store (some "hb") "S" "tokA").1
      (some "hb") "S" "tokB").1 "B" = 20 ∧
    ((request_access (request_access c1Store (some "hb") "S" "tokA").1
      (some "hb") "S" "tokB").1).tokens.length = 2 := by
  decide

/-! ## C6 -/

/-- C6 counterexample: an authenticated seller's unsuccessful verify (here:
token not found) returns the body `{valid: false}` with NO `error` key at
all — not one of `NOT_FOUND / ALREADY_USED / SELLER_MISMATCH / EXPIRED`. -/
theorem c6_no_error_code_counterexample :
    auth_user_id c6Store "hs" = .ok "S" ∧
    (verify_token c6Store "tok" (some "hs")).2 =
      .ok { valid := false, buyer_id := none, error := none } := by
  decide

theorem require_value_err_code {v : Option String} {n d : String} {c : Nat}
    (h : require_value v n = .err c d) : c = 400 := by
  cases v with
  | none => simp [require_value] at h; omega
  | some x =>
    by_cases hx : x = "" <;> simp [require_value, hx] at h
    omega

theorem auth_user_id_err_code {s : Store} {kh d : String} {c : Nat}
    (h : auth_user_id s kh = .err c d) : c = 401 := by
  unfold auth_user_id at h
  cases hf : s.users.find? (fun u => u.api_key_hash == kh) with
  | none => rw [hf] at h; simp at h; omega
  | some u => rw [hf] at h; simp at h

theorem auth_ok_mem {s : Store} {kh uid : String}
    (h : auth_user_id s kh = .ok uid) : ∃ u ∈ s.users, u.user_id = uid := by
  unfold auth_user_id at h
  cases hf : s.users.find? (fun u => u.api_key_hash == kh) with
  | none => rw [hf] at h; simp at h
  | some u =>
    rw [hf] at h
    simp at h
    exact ⟨u, List.mem_of_find?_eq_some hf, h⟩

theorem findUser_isSome_of_mem {users : List User} {uid : String}
    (h : ∃ u ∈ users, u.user_id = uid) : ∃ v, findUser users uid = some v := by
  have : (users.find? (fun u => u.user_id == uid)).isSome := by
    rw [List.find?_isSome]
    rcases h with ⟨u, hm, he⟩
    exact ⟨u, hm, by simp [he]⟩
  rcases Option.isSome_iff_exists.mp this with ⟨v, hv⟩
  exact ⟨v, hv⟩

theorem findUser_update_isSome {users : List User} {uid2 : String}
    {f : User → User} (hf : ∀ u, (f u).user_id = u.user_id) (uid : String) :
    (findUser (updateUser users uid2 f) uid).isSome = (findUser users uid).isSome := by
  rw [findUser_updateUser _ _ _ _ hf]
  cases findUser users uid <;> simp

theorem filter_length_ne_zero_of_findToken {tokens : List Token} {tk : String}
    {row : Token} (h : findToken tokens tk = some row) :
    ¬ (tokens.filter (fun t => t.token == tk)).length = 0 := by
  unfold findToken at h
  have hp := List.find?_some h
  have hm := List.mem_of_find?_eq_some h
  have : row ∈ tokens.filter (fun t => t.token == tk) := List.mem_filter.mpr ⟨hm, hp⟩
  have := List.length_pos.mpr (List.ne_nil_of_mem this)
  omega

/-- C6 amended: every 200 body an unsuccessful verify returns is exactly
`{valid: false}` with no `error` field (so callers cannot distinguish the
four cases), and every non-200 outcome is an HTTPException with status in
{400, 401, 403, 500} (403 being the seller-mismatch policy). -/
theorem c6_amended_no_error_codes (s : Store) (tok : String) (key : Option String) :
    (∀ b, (verify_token s tok key).2 = .ok b → b.valid = false →
      b = { valid := false, buyer_id := none, error := none }) ∧
    (∀ c d, (verify_token s tok key).2 = .err c d →
      c = 400 ∨ c = 401 ∨ c = 403 ∨ c = 500) := by
  rcases hrv : require_value key "x-seller-api-key" with key' | ⟨c0, d0⟩
  case err =>
    have h400 := require_value_err_code hrv
    constructor
    · intro b hb
      simp only [verify_token, hrv] at hb
      simp at hb
    · intro c d h
      simp only [verify_token, hrv] at h
      simp at h
      omega
  case ok =>
    rcases hau : auth_user_id s key' with sid | ⟨c1, d1⟩
    case err =>
      have h401 := auth_user_id_err_code hau
      constructor
      · intro b hb
        simp only [verify_token, hrv, hau] at hb
        simp at hb
      · intro c d h
        simp only [verify_token, hrv, hau] at h
        simp at h
        omega
    case ok =>
      rcases hft : findToken s.tokens tok with _ | row
      case none =>
        constructor
        · intro b hb
          simp only [verify_token, hrv, hau, hft] at hb
          simp at hb
          simp [← hb]
        · intro c d h
          simp only [verify_token, hrv, hau, hft] at h
          simp at h
      case some =>
        by_cases hmis : sid ≠ row.seller_id
        · constructor
          · intro b hb
            simp only [verify_token, hrv, hau, hft, if_pos hmis] at hb
            simp at hb
          · intro c d h
            simp only [verify_token, hrv, hau, hft, if_pos hmis] at h
            simp at h
            omega
        · have hne := filter_length_ne_zero_of_findToken hft
          constructor
          · intro b hb hv
            simp only [verify_token, hrv, hau, hft, if_neg hmis, if_neg hne] at hb
            split at hb
            · simp at hb
            · simp at hb
              rw [← hb] at hv
              simp at hv
          · intro c d h
            simp only [verify_token, hrv, hau, hft, if_neg hmis, if_neg hne] at h
            split at h
            · simp at h
              omega
            · simp at h

/-- Witness for the amended C6 theorem at a concrete input: seller `S`
verifies an unknown token and receives `{valid: false}` with `error = none`. -/
theorem c6_amended_no_error_codes_witness :
    ({ valid := false, buyer_id := none, error := none } : VerifyBody) =
      { valid := false, buyer_id := none, error := none } :=
  (c6_amended_no_error_codes c6Store "tok" (some "hs")).1
    { valid := false, buyer_id := none, error := none } (by decide) (by decide)

/-! ## C8 -/

/-- C8: insufficient-funds mint is atomic.  For any authenticated buyer
(non-blank credential resolving to `bId`) whose balance is strictly below
`COST`, `request_access` returns HTTP 402 and the store is returned exactly
as it was — no token inserted, no balance or escrow change. -/
theorem c8_insufficient_funds_atomic (s : Store) (kh bId sid tk : String)
    (hkh : kh ≠ "") (hauth : auth_user_id s kh = .ok bId)
    (hbal : userBalance s bId < COST) :
    request_access s (some kh) sid tk = (s, .err 402 "Insufficient Balance") := by
  have hreq : require_value (some kh) "x-api-key" = .ok kh := by
    simp [require_value, hkh]
  rcases findUser_isSome_of_mem (auth_ok_mem hauth) with ⟨buyer, hbuyer⟩
  have hbb : buyer.balance = userBalance s bId := by
    simp [userBalance, hbuyer]
  simp only [request_access, hreq, hauth, hbuyer]
  rw [if_pos (show buyer.balance < COST by rw [hbb]; exact hbal)]

/-- Witness for C8: buyer `B` with balance 5 gets a 402 and an unchanged store. -/
theorem c8_insufficient_funds_atomic_witness :
    request_access c8Store (some "hb") "S" "tok" =
      (c8Store, .err 402 "Insufficient Balance") :=
  c8_insufficient_funds_atomic c8Store "hb" "B" "S" "tok"
    (by decide) (by decide) (by decide)

/-! ## C7 -/

/-- A concrete store for C7/C9 witnesses: buyer `B`, bound seller `S`,
interloper seller `S2`, one live token `T` bound to `S`. -/
def c7Store : Store :=
  { users := [{ user_id := "B", api_key_hash := "hb", balance := 90, escrow_balance := 10,
                total_earned := 0, reputation := 0 },
              { user_id := "S", api_key_hash := "hs", balance := 0, escrow_balance := 0,
                total_earned := 0, reputation := 0 },
              { user_id := "S2", api_key_hash := "hs2", balance := 0, escrow_balance := 0,
                total_earned := 0, reputation := 0 }],
    tokens := [{ token := "T", user_id := "B", seller_id := "S" }],
    transactions := [] }

/-- C7: seller-mismatch verify changes nothing.  If token `T` is live and
bound to seller `S`, an authenticated different seller `S2 ≠ S` gets the
403 `HTTPException` and the store comes back exactly unchanged; the bound
seller's subsequent verify of the same token settles (`valid: true` with
the buyer's id). -/
theorem findUser_update_escrow (users : List User) (uid B : String) (E : Int) :
    findUser (updateUser users uid (fun u => { u with escrow_balance := E })) B =
      (findUser users B).map
        (fun u => if u.user_id == uid then { u with escrow_balance := E } else u) :=
  findUser_updateUser users uid B _ (fun _ => rfl)

theorem findUser_update_lock (users : List User) (uid B : String) (Bv Ev : Int) :
    findUser (updateUser users uid
        (fun u => { u with balance := Bv, escrow_balance := Ev })) B =
      (findUser users B).map
        (fun u => if u.user_id == uid then { u with balance := Bv, escrow_balance := Ev }
                  else u) :=
  findUser_updateUser users uid B _ (fun _ => rfl)

theorem findUser_update_payout (users : List User) (uid B : String) (E R : Int) :
    findUser (updateUser users uid
        (fun u => { u with total_earned := E, reputation := R })) B =
      (findUser users B).map
        (fun u => if u.user_id == uid then { u with total_earned := E, reputation := R }
                  else u) :=
  findUser_updateUser users uid B _ (fun _ => rfl)

theorem findUser_update_balance (users : List User) (uid B : String) (Bv : Int) :
    findUser (updateUser users uid (fun u => { u with balance := Bv })) B =
      (findUser users B).map
        (fun u => if u.user_id == uid then { u with balance := Bv } else u) :=
  findUser_updateUser users uid B _ (fun _ => rfl)

theorem findUser_update_rep (users : List User) (uid B : String) (R : Int) :
    findUser (updateUser users uid (fun u => { u with reputation := R })) B =
      (findUser users B).map
        (fun u => if u.user_id == uid then { u with reputation := R } else u) :=
  findUser_updateUser users uid B _ (fun _ => rfl)

theorem c7_seller_mismatch_frame (s : Store) (T kh kh2 S S2 : String) (row : Token)
    (hk2 : kh2 ≠ "") (hauth2 : auth_user_id s kh2 = .ok S2)
    (hrow : findToken s.tokens T = some row) (hS : row.seller_id = S)
    (hne : S2 ≠ S)
    (hk : kh ≠ "") (hauth : auth_user_id s kh = .ok S) :
    verify_token s T (some kh2) = (s, .err 403 "Seller not authorized for this token") ∧
    (verify_token s T (some kh)).2 = .ok { valid := true, buyer_id := some row.user_id } := by
  have hreq2 : require_value (some kh2) "x-seller-api-key" = .ok kh2 := by
    simp [require_value, hk2]
  have hreq : require_value (some kh) "x-seller-api-key" = .ok kh := by
    simp [require_value, hk]
  constructor
  · simp only [verify_token, hreq2, hauth2, hrow]
    rw [if_pos (show S2 ≠ row.seller_id by rw [hS]; exact hne)]
  · have hnempty := filter_length_ne_zero_of_findToken hrow
    simp only [verify_token, hreq, hauth, hrow]
    rw [if_neg (show ¬ S ≠ row.seller_id by rw [hS]; exact fun h => h rfl)]
    rw [if_neg hnempty]
    split
    · rename_i heq
      rw [findUser_update_escrow] at heq
      have hmem := auth_ok_mem hauth
      have hsm : ∃ v, findUser s.users row.seller_id = some v := by
        rw [hS]
        exact findUser_isSome_of_mem hmem
      rcases hsm with ⟨v, hv⟩
      rw [hv] at heq
      simp at heq
    · rfl

/-- Witness for C7 at `c7Store`: `S2`'s verify of `T` 403s without touching
the store and `S`'s verify then settles. -/
theorem c7_seller_mismatch_frame_witness :
    verify_token c7Store "T" (some "hs2") =
      (c7Store, .err 403 "Seller not authorized for this token") ∧
    (verify_token c7Store "T" (some "hs")).2 =
      .ok { valid := true, buyer_id := some "B" } :=
  c7_seller_mismatch_frame c7Store "T" "hs" "hs2" "S" "S2"
    { token := "T", user_id := "B", seller_id := "S" }
    (by decide) (by decide) (by decide) (by decide) (by decide) (by decide) (by decide)
/-! ## C5 -/

/-- C5 fixture: buyer `B` with balance 100 and no escrow; seller `S` with
arbitrary starting balance/escrow/earnings/reputation; arbitrary prior
ledger `ts`; no live tokens. -/
def c5Store (bs es e r : Int) (ts : List Txn) : Store :=
  { users := [{ user_id := "B", api_key_hash := "hb", balance := 100, escrow_balance := 0,
                total_earned := 0, reputation := 0 },
              { user_id := "S", api_key_hash := "hs", balance := bs, escrow_balance := es,
                total_earned := e, reputation := r }],
    tokens := [], transactions := ts }

/-- C5: the settle happy path.  Buyer `B` (balance 100) mints token `T` for
seller `S`; `S` verifies it.  The verify returns `{valid: true, buyer_id: B}`,
the token row is gone, `B` ends at balance 90 / escrow 0 (the mint's escrow
of `COST` was deducted, saturating at 0), `S`'s `total_earned` grows by
`COST` and `reputation` by 1, and exactly one ledger row is appended. -/
theorem c5_happy_path_settles (bs es e r : Int) (ts : List Txn) :
    (request_access (c5Store bs es e r ts) (some "hb") "S" "T").2 = .ok "T" ∧
    (verify_token (request_access (c5Store bs es e r ts) (some "hb") "S" "T").1
      "T" (some "hs")).2 = .ok { valid := true, buyer_id := some "B" } ∧
    tokenLive (verify_token (request_access (c5Store bs es e r ts) (some "hb") "S" "T").1
      "T" (some "hs")).1 "T" = false ∧
    userBalance (verify_token (request_access (c5Store bs es e r ts) (some "hb") "S" "T").1
      "T" (some "hs")).1 "B" = 90 ∧
    userEscrow (verify_token (request_access (c5Store bs es e r ts) (some "hb") "S" "T").1
      "T" (some "hs")).1 "B" = 0 ∧
    userEarned (verify_token (request_access (c5Store bs es e r ts) (some "hb") "S" "T").1
      "T" (some "hs")).1 "S" = e + COST ∧
    userRep (verify_token (request_access (c5Store bs es e r ts) (some "hb") "S" "T").1
      "T" (some "hs")).1 "S" = r + 1 ∧
    (verify_token (request_access (c5Store bs es e r ts) (some "hb") "S" "T").1
      "T" (some "hs")).1.transactions = ts ++
      [{ buyer_id := "B", seller_id := "S", amount := COST, token := "T",
         challenged := false, challenge_status := none, challenge_stake := 0,
         challenge_reason := none, challenge_resolved_at := none }] := by
  refine ⟨?_, ?_, ?_, ?_, ?_, ?_, ?_, ?_⟩ <;>
    simp [c5Store, request_access, verify_token, require_value, auth_user_id,
          findUser, findToken, deleteToken, updateUser, tokenLive, userBalance,
          userEscrow, userEarned, userRep, COST]
/-! ## C2 -/

theorem findToken_deleteToken (tokens : List Token) (tk : String) :
    findToken (deleteToken tokens tk) tk = none := by
  unfold findToken deleteToken
  rw [List.find?_eq_none]
  intro t ht
  have := (List.mem_filter.mp ht).2
  simp at this
  simp [this]

/-- A verify of a token with no live row returns the store unchanged and an
unsuccessful result, whatever the credential. -/
theorem verify_token_dead (s : Store) (T : String) (k : Option String)
    (h : findToken s.tokens T = none) :
    (verify_token s T k).1 = s ∧ verifyValid (verify_token s T k).2 = false := by
  rcases hrv : require_value k "x-seller-api-key" with key' | ⟨c0, d0⟩
  case err => simp [verify_token, hrv, verifyValid]
  case ok =>
    rcases hau : auth_user_id s key' with sid | ⟨c1, d1⟩
    case err => simp [verify_token, hrv, hau, verifyValid]
    case ok => simp [verify_token, hrv, hau, h, verifyValid]

/-- One verify call: an unsuccessful call appends no ledger row; a
successful call burns the token's rows and appends exactly one ledger row
carrying the token id. -/
theorem verify_token_step_facts (s : Store) (T : String) (k : Option String) :
    (verifyValid (verify_token s T k).2 = false →
      (verify_token s T k).1.transactions = s.transactions) ∧
    (verifyValid (verify_token s T k).2 = true →
      tokenLive (verify_token s T k).1 T = false ∧
      ∃ tx0 : Txn, tx0.token = T ∧
        (verify_token s T k).1.transactions = s.transactions ++ [tx0]) := by
  rcases hrv : require_value k "x-seller-api-key" with key' | ⟨c0, d0⟩
  case err =>
    constructor
    · intro _
      simp [verify_token, hrv]
    · intro hv
      simp [verify_token, hrv, verifyValid] at hv
  case ok =>
    rcases hau : auth_user_id s key' with sid | ⟨c1, d1⟩
    case err =>
      constructor
      · intro _
        simp [verify_token, hrv, hau]
      · intro hv
        simp [verify_token, hrv, hau, verifyValid] at hv
    case ok =>
      rcases hft : findToken s.tokens T with _ | row
      case none =>
        constructor
        · intro _
          simp [verify_token, hrv, hau, hft]
        · intro hv
          simp [verify_token, hrv, hau, hft, verifyValid] at hv
      case some =>
        by_cases hmis : sid ≠ row.seller_id
        · constructor
          · intro _
            simp only [verify_token, hrv, hau, hft, if_pos hmis]
          · intro hv
            simp only [verify_token, hrv, hau, hft, if_pos hmis, verifyValid] at hv
            simp at hv
        · have hnempty := filter_length_ne_zero_of_findToken hft
          constructor
          · intro hv
            simp only [verify_token, hrv, hau, hft, if_neg hmis, if_neg hnempty] at hv ⊢
            split at hv
            · simp
            · simp [verifyValid] at hv
          · intro hv
            simp only [verify_token, hrv, hau, hft, if_neg hmis, if_neg hnempty] at hv ⊢
            split at hv
            · simp [verifyValid] at hv
            · refine ⟨?_, ?_⟩
              · simp [tokenLive, findToken_deleteToken]
              · refine ⟨{ buyer_id := row.user_id, seller_id := row.seller_id,
                          amount := COST, token := T, challenged := false,
                          challenge_status := none, challenge_stake := 0,
                          challenge_reason := none, challenge_resolved_at := none },
                        rfl, ?_⟩
                simp
/-- A sequence of `GET /verify/{T}` calls for one token `T`, each presenting
some credential; returns the final store and, per call, whether the call
answered `valid: true`. -/
def runVerifies (T : String) (keys : List (Option String)) (s : Store) :
    Store × List Bool :=
  match keys with
  | [] => (s, [])
  | k :: rest =>
    let p := verify_token s T k
    let q := runVerifies T rest p.1
    (q.1, verifyValid p.2 :: q.2)

/-- Once no row for `T` is live, any further verify sequence settles
nothing and leaves the store untouched. -/
theorem runVerifies_dead (T : String) (keys : List (Option String)) (s : Store)
    (h : tokenLive s T = false) :
    (runVerifies T keys s).1 = s ∧ (runVerifies T keys s).2.count true = 0 := by
  induction keys generalizing s with
  | nil => simp [runVerifies]
  | cons k rest ih =>
    have hnone : findToken s.tokens T = none := by
      unfold tokenLive at h
      exact Option.not_isSome_iff_eq_none.mp (by simp [h])
    obtain ⟨h1, h2⟩ := verify_token_dead s T k hnone
    have := ih s h
    simp only [runVerifies, h1, h2]
    simp [this.1, this.2]

/-- C2: at-most-once settlement per token.  For every starting store, token
`T` and sequence of verify calls: at most one call answers `valid: true`;
the run adds at most one `transactions` row for `T`; and if the ledger
held no row for `T` at the start it holds at most one at the end (so, in
particular, every verify after a successful one answers `valid: false`). -/
theorem c2_at_most_once_settlement (s : Store) (T : String)
    (keys : List (Option String)) :
    (runVerifies T keys s).2.count true ≤ 1 ∧
    txCount (runVerifies T keys s).1 T ≤ txCount s T + 1 ∧
    (txCount s T = 0 → txCount (runVerifies T keys s).1 T ≤ 1) := by
  induction keys generalizing s with
  | nil =>
    refine ⟨by simp [runVerifies], by simp [runVerifies], ?_⟩
    intro h0
    simp [runVerifies, h0]
  | cons k rest ih =>
    obtain ⟨hfalse, htrue⟩ := verify_token_step_facts s T k
    cases hv : verifyValid (verify_token s T k).2 with
    | false =>
      have htx : (verify_token s T k).1.transactions = s.transactions := hfalse hv
      have htxc : txCount (verify_token s T k).1 T = txCount s T := by
        unfold txCount
        rw [htx]
      obtain ⟨ih1, ih2, ih3⟩ := ih (verify_token s T k).1
      refine ⟨?_, ?_, ?_⟩
      · simp only [runVerifies, hv]
        simpa using ih1
      · simp only [runVerifies]
        calc txCount (runVerifies T rest (verify_token s T k).1).1 T
            ≤ txCount (verify_token s T k).1 T + 1 := ih2
          _ = txCount s T + 1 := by rw [htxc]
      · intro h0
        simp only [runVerifies]
        exact ih3 (by rw [htxc]; exact h0)
    | true =>
      obtain ⟨hkill, tx0, htx0, happ⟩ := htrue hv
      obtain ⟨hst, hcnt⟩ := runVerifies_dead T rest (verify_token s T k).1 hkill
      have htxc : txCount (verify_token s T k).1 T = txCount s T + 1 := by
        unfold txCount
        rw [happ, List.filter_append]
        simp [htx0]
      refine ⟨?_, ?_, ?_⟩
      · simp only [runVerifies, hv]
        simp [hcnt]
      · simp only [runVerifies]
        rw [hst, htxc]
      · intro h0
        simp only [runVerifies]
        rw [hst, htxc, h0]
/-- Witness for C2: two verifies of the live token in `c7Store` by its bound
seller settle exactly once and leave exactly one ledger row. -/
theorem c2_at_most_once_settlement_witness :
    (runVerifies "T" [some "hs", some "hs"] c7Store).2.count true ≤ 1 ∧
    txCount (runVerifies "T" [some "hs", some "hs"] c7Store).1 "T" ≤
      txCount c7Store "T" + 1 ∧
    txCount (runVerifies "T" [some "hs", some "hs"] c7Store).1 "T" ≤ 1 :=
  ⟨(c2_at_most_once_settlement c7Store "T" [some "hs", some "hs"]).1,
   (c2_at_most_once_settlement c7Store "T" [some "hs", some "hs"]).2.1,
   (c2_at_most_once_settlement c7Store "T" [some "hs", some "hs"]).2.2 (by decide)⟩

/-! ## C9 -/

/-- Reading an integer column through `findUser` is unchanged by an update
that leaves both `user_id` and that column alone. -/
theorem read_update_preserved (users : List User) (uid B : String)
    (f : User → User) (g : User → Int)
    (hid : ∀ u, (f u).user_id = u.user_id) (hg : ∀ u, g (f u) = g u) :
    ((findUser (updateUser users uid f) B).map g).getD 0 =
      ((findUser users B).map g).getD 0 := by
  rw [findUser_updateUser _ _ _ _ hid]
  cases findUser users B with
  | none => rfl
  | some u =>
    by_cases h : u.user_id = uid
    · simp [h, hg]
    · simp [h]

/-- `request_access` either changes no token row or appends exactly the
three-column row `{token, user_id, seller_id}` — no `expires_at`, no
amount, no idempotency key is stored. -/
theorem mint_token_row_shape (s : Store) (k : Option String) (sid tk : String) :
    (request_access s k sid tk).1.tokens = s.tokens ∨
    ∃ bid, (request_access s k sid tk).1.tokens =
      s.tokens ++ [{ token := tk, user_id := bid, seller_id := sid }] := by
  rcases hrv : require_value k "x-api-key" with key' | ⟨c0, d0⟩
  case err => left; simp [request_access, hrv]
  case ok =>
    rcases hau : auth_user_id s key' with bid | ⟨c1, d1⟩
    case err => left; simp [request_access, hrv, hau]
    case ok =>
      rcases hfu : findUser s.users bid with _ | buyer
      case none => left; simp [request_access, hrv, hau, hfu]
      case some =>
        by_cases hbal : buyer.balance < COST
        · left; simp [request_access, hrv, hau, hfu, if_pos hbal]
        · right
          exact ⟨bid, by simp [request_access, hrv, hau, hfu, if_neg hbal]⟩

/-- Any live token settles for its bound (authenticated) seller — there is
no time input and no expiry check anywhere in `verify_token`. -/
theorem verify_live_bound_seller_settles (s : Store) (T kh : String) (row : Token)
    (hk : kh ≠ "") (hrow : findToken s.tokens T = some row)
    (hauth : auth_user_id s kh = .ok row.seller_id) :
    verifyValid (verify_token s T (some kh)).2 = true := by
  have hreq : require_value (some kh) "x-seller-api-key" = .ok kh := by
    simp [require_value, hk]
  have hnempty := filter_length_ne_zero_of_findToken hrow
  simp only [verify_token, hreq, hauth, hrow]
  rw [if_neg (show ¬ row.seller_id ≠ row.seller_id from fun h => h rfl)]
  rw [if_neg hnempty]
  split
  · rename_i heq
    rw [findUser_update_escrow] at heq
    rcases findUser_isSome_of_mem (auth_ok_mem hauth) with ⟨v, hv⟩
    rw [hv] at heq
    simp at heq
  · simp [verifyValid]
/-- `verify_token` never changes any user's spendable `balance`: settlement
moves escrow to seller `total_earned`, never back to a balance. -/
theorem verify_preserves_balance (s : Store) (T : String) (k : Option String)
    (uid : String) :
    userBalance (verify_token s T k).1 uid = userBalance s uid := by
  rcases hrv : require_value k "x-seller-api-key" with key' | ⟨c0, d0⟩
  case err => simp [verify_token, hrv]
  case ok =>
    rcases hau : auth_user_id s key' with sid | ⟨c1, d1⟩
    case err => simp [verify_token, hrv, hau]
    case ok =>
      rcases hft : findToken s.tokens T with _ | row
      case none => simp [verify_token, hrv, hau, hft]
      case some =>
        by_cases hmis : sid ≠ row.seller_id
        · simp only [verify_token, hrv, hau, hft, if_pos hmis]
        · have hnempty := filter_length_ne_zero_of_findToken hft
          simp only [verify_token, hrv, hau, hft, if_neg hmis, if_neg hnempty]
          split
          · dsimp only [userBalance]
            rw [read_update_preserved]
            · intro u
              rfl
            · intro u
              rfl
          · dsimp only [userBalance]
            rw [read_update_preserved, read_update_preserved]
            · intro u
              rfl
            · intro u
              rfl
            · intro u
              rfl
            · intro u
              rfl
/-- `open_challenge` never touches any user's `escrow_balance` (it stakes
from `balance` only). -/
theorem open_challenge_preserves_escrow (s : Store) (k : Option String)
    (tok : String) (reason : Option String) (uid : String) :
    userEscrow (open_challenge s k tok reason).1 uid = userEscrow s uid := by
  rcases hrv : require_value k "x-api-key" with key' | ⟨c0, d0⟩
  case err => simp [open_challenge, hrv]
  case ok =>
    rcases hau : auth_user_id s key' with bid | ⟨c1, d1⟩
    case err => simp [open_challenge, hrv, hau]
    case ok =>
      rcases hfx : findTxn s.transactions tok with _ | tx
      case none => simp [open_challenge, hrv, hau, hfx]
      case some =>
        by_cases hown : tx.buyer_id ≠ bid
        · simp only [open_challenge, hrv, hau, hfx, if_pos hown]
        · cases hch : tx.challenged with
          | true =>
            simp only [open_challenge, hrv, hau, hfx, if_neg hown, if_pos hch]
          | false =>
            have hch' : ¬ (tx.challenged = true) := by simp [hch]
            rcases hfu : findUser s.users bid with _ | buyer
            · simp only [open_challenge, hrv, hau, hfx, if_neg hown, if_neg hch', hfu]
            · by_cases hbal : buyer.balance < CHALLENGE_STAKE
              · simp only [open_challenge, hrv, hau, hfx, if_neg hown, if_neg hch',
                           hfu, if_pos hbal]
              · simp only [open_challenge, hrv, hau, hfx, if_neg hown, if_neg hch',
                           hfu, if_neg hbal]
                dsimp only [userEscrow]
                rw [read_update_preserved]
                · intro u
                  rfl
                · intro u
                  rfl

/-- `resolve_challenge` never touches any user's `escrow_balance` (the
penalty hits `reputation`, the refund credits `balance`). -/
theorem resolve_challenge_preserves_escrow (s : Store) (ak ek : Option String)
    (tok oc ra : String) (uid : String) :
    userEscrow (resolve_challenge s ak ek tok oc ra).1 uid = userEscrow s uid := by
  rcases had : require_admin ak ek with u0 | ⟨c0, d0⟩
  case err => simp [resolve_challenge, had]
  case ok =>
    by_cases hoc : oc.trim.toLower = "valid" ∨ oc.trim.toLower = "invalid"
    case neg => simp only [resolve_challenge, had, if_neg hoc]
    case pos =>
      rcases hfx : findTxn s.transactions tok with _ | tx
      case none => simp only [resolve_challenge, had, if_pos hoc, hfx]
      case some =>
        by_cases hpend : tx.challenged = false ∨ tx.challenge_status ≠ some "pending"
        · simp only [resolve_challenge, had, if_pos hoc, hfx, if_pos hpend]
        · by_cases hv : oc.trim.toLower = "valid"
          · by_cases hstake : tx.challenge_stake > 0
            · simp only [resolve_challenge, had, if_pos hoc, hfx, if_neg hpend,
                         if_pos hv, if_pos hstake]
              dsimp only [userEscrow]
              rw [read_update_preserved, read_update_preserved]
              · intro u
                rfl
              · intro u
                rfl
              · intro u
                rfl
              · intro u
                rfl
            · simp only [resolve_challenge, had, if_pos hoc, hfx, if_neg hpend,
                         if_pos hv, if_neg hstake]
              dsimp only [userEscrow]
              rw [read_update_preserved]
              · intro u
                rfl
              · intro u
                rfl
          · simp only [resolve_challenge, had, if_pos hoc, hfx, if_neg hpend, if_neg hv]
            rfl

/-- `request_access` never decreases any user's escrow: a successful mint
adds `COST` to the buyer's escrow and leaves everyone else alone. -/
theorem request_access_escrow_mono (s : Store) (k : Option String)
    (sid tk uid : String) :
    userEscrow s uid ≤ userEscrow (request_access s k sid tk).1 uid := by
  rcases hrv : require_value k "x-api-key" with key' | ⟨c0, d0⟩
  case err => simp [request_access, hrv]
  case ok =>
    rcases hau : auth_user_id s key' with bid | ⟨c1, d1⟩
    case err => simp [request_access, hrv, hau]
    case ok =>
      rcases hfu : findUser s.users bid with _ | buyer
      case none => simp [request_access, hrv, hau, hfu]
      case some =>
        by_cases hbal : buyer.balance < COST
        · simp [request_access, hrv, hau, hfu, if_pos hbal]
        · simp only [request_access, hrv, hau, hfu, if_neg hbal]
          dsimp only [userEscrow]
          rw [findUser_update_lock]
          by_cases huid : uid = bid
          · subst huid
            rw [hfu]
            have hid := find?_user_id_eq hfu
            simp [hid]
            have : (0 : Int) ≤ COST := by decide
            omega
          · rw [show findUser s.users uid = findUser s.users uid from rfl]
            cases hfu2 : findUser s.users uid with
            | none => simp
            | some v =>
              have hid2 := find?_user_id_eq hfu2
              simp [hid2, huid]
/-- C9: minted tokens never expire and escrow is never refunded.  (a) A mint
stores only `{token, user_id, seller_id}` — no `expires_at`, no TTL, no
idempotency key (the handler does not even accept them).  (b) `verify_token`
takes no clock input and performs no time check: any live token settles for
its authenticated bound seller no matter how long ago it was minted.
(c) No operation moves escrow back to a spendable balance: verify never
changes any `balance`, the challenge endpoints never change any
`escrow_balance`, and `request_access` never decreases any `escrow_balance` —
so the escrow held for an unredeemed token is never returned to its buyer. -/
theorem c9_no_expiry_no_escrow_refund (s : Store) :
    (∀ k sid tk, (request_access s k sid tk).1.tokens = s.tokens ∨
      ∃ bid, (request_access s k sid tk).1.tokens =
        s.tokens ++ [{ token := tk, user_id := bid, seller_id := sid }]) ∧
    (∀ T kh row, kh ≠ "" → findToken s.tokens T = some row →
      auth_user_id s kh = .ok row.seller_id →
      verifyValid (verify_token s T (some kh)).2 = true) ∧
    (∀ T k uid, userBalance (verify_token s T k).1 uid = userBalance s uid) ∧
    (∀ k tok reason uid,
      userEscrow (open_challenge s k tok reason).1 uid = userEscrow s uid) ∧
    (∀ ak ek tok oc ra uid,
      userEscrow (resolve_challenge s ak ek tok oc ra).1 uid = userEscrow s uid) ∧
    (∀ k sid tk uid, userEscrow s uid ≤ userEscrow (request_access s k sid tk).1 uid) :=
  ⟨fun k sid tk => mint_token_row_shape s k sid tk,
   fun T kh row hk hrow hauth => verify_live_bound_seller_settles s T kh row hk hrow hauth,
   fun T k uid => verify_preserves_balance s T k uid,
   fun k tok reason uid => open_challenge_preserves_escrow s k tok reason uid,
   fun ak ek tok oc ra uid => resolve_challenge_preserves_escrow s ak ek tok oc ra uid,
   fun k sid tk uid => request_access_escrow_mono s k sid tk uid⟩

/-- Witness for C9 at `c7Store`: the live token `T` settles for its bound
seller `S` (no expiry ever blocks it). -/
theorem c9_no_expiry_no_escrow_refund_witness :
    verifyValid (verify_token c7Store "T" (some "hs")).2 = true :=
  (c9_no_expiry_no_escrow_refund c7Store).2.1 "T" "hs"
    { token := "T", user_id := "B", seller_id := "S" }
    (by decide) (by decide) (by decide)
/-! ## C10 -/

theorem findTxn_updateTxn (txs : List Txn) (tk tk2 : String) (f : Txn → Txn)
    (hf : ∀ t, (f t).token = t.token) :
    findTxn (updateTxn txs tk f) tk2 =
      (findTxn txs tk2).map (fun t => if t.token == tk then f t else t) := by
  unfold findTxn updateTxn
  rw [List.find?_map]
  have hp : ((fun t : Txn => t.token == tk2) ∘
      (fun t => if t.token == tk then f t else t)) = (fun t => t.token == tk2) := by
    funext t
    by_cases h : t.token == tk
    · simp [Function.comp, h, hf]
    · simp [Function.comp, h]
  rw [hp]

theorem find?_txn_token_eq {txs : List Txn} {tk : String} {t : Txn}
    (h : findTxn txs tk = some t) : t.token = tk := by
  unfold findTxn at h
  have := List.find?_some h
  simpa using this

/-- A second `open_challenge` for the owner of an already-challenged
transaction fails with 400 before any mutation. -/
theorem open_challenge_already_challenged (s : Store) (kh bid tok : String)
    (r : Option String) (tx : Txn) (hk : kh ≠ "")
    (hauth : auth_user_id s kh = .ok bid)
    (hfx : findTxn s.transactions tok = some tx)
    (hown : tx.buyer_id = bid) (hch : tx.challenged = true) :
    open_challenge s (some kh) tok r = (s, .err 400 "Already challenged") := by
  have hreq : require_value (some kh) "x-api-key" = .ok kh := by
    simp [require_value, hk]
  simp only [open_challenge, hreq, hauth, hfx]
  rw [if_neg (show ¬ tx.buyer_id ≠ bid from fun h => h hown)]
  rw [if_pos hch]

/-- Every failing `open_challenge` leaves the store untouched: the stake is
deducted only after all precondition checks pass. -/
theorem open_challenge_err_frame (s : Store) (k : Option String) (tok : String)
    (r : Option String) (c : Nat) (d : String)
    (h : (open_challenge s k tok r).2 = .err c d) :
    (open_challenge s k tok r).1 = s := by
  rcases hrv : require_value k "x-api-key" with key' | ⟨c0, d0⟩
  case err => simp [open_challenge, hrv]
  case ok =>
    rcases hau : auth_user_id s key' with bid | ⟨c1, d1⟩
    case err => simp [open_challenge, hrv, hau]
    case ok =>
      rcases hfx : findTxn s.transactions tok with _ | tx
      case none => simp [open_challenge, hrv, hau, hfx]
      case some =>
        by_cases hown : tx.buyer_id ≠ bid
        · simp only [open_challenge, hrv, hau, hfx, if_pos hown]
        · cases hch : tx.challenged with
          | true => simp only [open_challenge, hrv, hau, hfx, if_neg hown, if_pos hch]
          | false =>
            have hch' : ¬ (tx.challenged = true) := by simp [hch]
            rcases hfu : findUser s.users bid with _ | buyer
            · simp only [open_challenge, hrv, hau, hfx, if_neg hown, if_neg hch', hfu]
            · by_cases hbal : buyer.balance < CHALLENGE_STAKE
              · simp only [open_challenge, hrv, hau, hfx, if_neg hown, if_neg hch',
                           hfu, if_pos hbal]
              · exfalso
                simp only [open_challenge, hrv, hau, hfx, if_neg hown, if_neg hch',
                           hfu, if_neg hbal] at h
                simp at h

/-- A successful `open_challenge` marks the transaction challenged and
pending, and deducts exactly one stake from the buyer's balance. -/
theorem open_challenge_success_marks (s : Store) (k : Option String) (tok : String)
    (r : Option String) (b : ChallengeOpenBody)
    (h : (open_challenge s k tok r).2 = .ok b) :
    ∃ tx', findTxn (open_challenge s k tok r).1.transactions tok = some tx' ∧
      tx'.challenged = true ∧ tx'.challenge_status = some "pending" := by
  rcases hrv : require_value k "x-api-key" with key' | ⟨c0, d0⟩
  case err => simp [open_challenge, hrv] at h
  case ok =>
    rcases hau : auth_user_id s key' with bid | ⟨c1, d1⟩
    case err => simp [open_challenge, hrv, hau] at h
    case ok =>
      rcases hfx : findTxn s.transactions tok with _ | tx
      case none => simp [open_challenge, hrv, hau, hfx] at h
      case some =>
        by_cases hown : tx.buyer_id ≠ bid
        · simp only [open_challenge, hrv, hau, hfx, if_pos hown] at h
          simp at h
        · cases hch : tx.challenged with
          | true =>
            simp only [open_challenge, hrv, hau, hfx, if_neg hown, if_pos hch] at h
            simp at h
          | false =>
            have hch' : ¬ (tx.challenged = true) := by simp [hch]
            rcases hfu : findUser s.users bid with _ | buyer
            · simp only [open_challenge, hrv, hau, hfx, if_neg hown, if_neg hch',
                         hfu] at h
              simp at h
            · by_cases hbal : buyer.balance < CHALLENGE_STAKE
              · simp only [open_challenge, hrv, hau, hfx, if_neg hown, if_neg hch',
                           hfu, if_pos hbal] at h
                simp at h
              · simp only [open_challenge, hrv, hau, hfx, if_neg hown, if_neg hch',
                           hfu, if_neg hbal]
                rw [findTxn_updateTxn]
                · rw [hfx]
                  have htk := find?_txn_token_eq hfx
                  refine ⟨{ buyer_id := tx.buyer_id, seller_id := tx.seller_id,
                            amount := tx.amount, token := tx.token, challenged := true,
                            challenge_status := some "pending",
                            challenge_stake := CHALLENGE_STAKE, challenge_reason := r,
                            challenge_resolved_at := tx.challenge_resolved_at },
                          ?_, rfl, rfl⟩
                  simp [htk]
                · intro t
                  rfl

/-- Any `open_challenge` against an already-challenged transaction fails
(whoever calls it) and returns the store unchanged. -/
theorem open_challenge_errs_when_challenged (s : Store) (tok : String) (tx : Txn)
    (hfx : findTxn s.transactions tok = some tx) (hch : tx.challenged = true)
    (k : Option String) (r : Option String) :
    ∃ c d, open_challenge s k tok r = (s, .err c d) := by
  rcases hrv : require_value k "x-api-key" with key' | ⟨c0, d0⟩
  case err => exact ⟨c0, d0, by simp [open_challenge, hrv]⟩
  case ok =>
    rcases hau : auth_user_id s key' with bid | ⟨c1, d1⟩
    case err => exact ⟨c1, d1, by simp [open_challenge, hrv, hau]⟩
    case ok =>
      by_cases hown : tx.buyer_id ≠ bid
      · exact ⟨403, "Not your transaction",
          by simp only [open_challenge, hrv, hau, hfx, if_pos hown]⟩
      · exact ⟨400, "Already challenged", by
          simp only [open_challenge, hrv, hau, hfx, if_neg hown, if_pos hch]⟩
/-- Every failing `resolve_challenge` leaves the store untouched. -/
theorem resolve_challenge_err_frame (s : Store) (ak ek : Option String)
    (tok oc ra : String) (c : Nat) (d : String)
    (h : (resolve_challenge s ak ek tok oc ra).2 = .err c d) :
    (resolve_challenge s ak ek tok oc ra).1 = s := by
  rcases had : require_admin ak ek with u0 | ⟨c0, d0⟩
  case err => simp [resolve_challenge, had]
  case ok =>
    by_cases hoc : oc.trim.toLower = "valid" ∨ oc.trim.toLower = "invalid"
    case neg => simp only [resolve_challenge, had, if_neg hoc]
    case pos =>
      rcases hfx : findTxn s.transactions tok with _ | tx
      case none => simp only [resolve_challenge, had, if_pos hoc, hfx]
      case some =>
        by_cases hpend : tx.challenged = false ∨ tx.challenge_status ≠ some "pending"
        · simp only [resolve_challenge, had, if_pos hoc, hfx, if_pos hpend]
        · exfalso
          by_cases hv : oc.trim.toLower = "valid"
          · by_cases hstake : tx.challenge_stake > 0
            · simp only [resolve_challenge, had, if_pos hoc, hfx, if_neg hpend,
                         if_pos hv, if_pos hstake] at h
              simp at h
            · simp only [resolve_challenge, had, if_pos hoc, hfx, if_neg hpend,
                         if_pos hv, if_neg hstake] at h
              simp at h
          · simp only [resolve_challenge, had, if_pos hoc, hfx, if_neg hpend,
                       if_neg hv] at h
            simp at h

/-- `resolve_challenge` refuses (with the store unchanged) whenever the
transaction's challenge is not exactly `pending`. -/
theorem resolve_challenge_not_pending_errs (s : Store) (tok : String) (tx : Txn)
    (hfx : findTxn s.transactions tok = some tx)
    (hnp : tx.challenge_status ≠ some "pending")
    (ak ek : Option String) (oc ra : String) :
    ∃ c d, resolve_challenge s ak ek tok oc ra = (s, .err c d) := by
  rcases had : require_admin ak ek with u0 | ⟨c0, d0⟩
  case err => exact ⟨c0, d0, by simp [resolve_challenge, had]⟩
  case ok =>
    by_cases hoc : oc.trim.toLower = "valid" ∨ oc.trim.toLower = "invalid"
    case neg =>
      exact ⟨400, "Outcome must be 'valid' or 'invalid'",
        by simp only [resolve_challenge, had, if_neg hoc]⟩
    case pos =>
      exact ⟨400, "Challenge is not pending", by
        simp only [resolve_challenge, had, if_pos hoc, hfx, if_pos (Or.inr hnp)]⟩

/-- A successful `resolve_challenge` leaves the transaction's challenge
status at `valid` or `invalid` — never back at `pending`. -/
theorem resolve_challenge_success_resolves (s : Store) (ak ek : Option String)
    (tok oc ra : String) (b : ResolveBody)
    (h : (resolve_challenge s ak ek tok oc ra).2 = .ok b) :
    ∃ tx', findTxn (resolve_challenge s ak ek tok oc ra).1.transactions tok = some tx' ∧
      (tx'.challenge_status = some "valid" ∨ tx'.challenge_status = some "invalid") := by
  rcases had : require_admin ak ek with u0 | ⟨c0, d0⟩
  case err => simp [resolve_challenge, had] at h
  case ok =>
    by_cases hoc : oc.trim.toLower = "valid" ∨ oc.trim.toLower = "invalid"
    case neg =>
      simp only [resolve_challenge, had, if_neg hoc] at h
      simp at h
    case pos =>
      rcases hfx : findTxn s.transactions tok with _ | tx
      case none =>
        simp only [resolve_challenge, had, if_pos hoc, hfx] at h
        simp at h
      case some =>
        by_cases hpend : tx.challenged = false ∨ tx.challenge_status ≠ some "pending"
        · simp only [resolve_challenge, had, if_pos hoc, hfx, if_pos hpend] at h
          simp at h
        · have htk := find?_txn_token_eq hfx
          by_cases hv : oc.trim.toLower = "valid"
          · by_cases hstake : tx.challenge_stake > 0
            · simp only [resolve_challenge, had, if_pos hoc, hfx, if_neg hpend,
                         if_pos hv, if_pos hstake]
              rw [findTxn_updateTxn]
              · rw [hfx]
                refine ⟨{ buyer_id := tx.buyer_id, seller_id := tx.seller_id,
                          amount := tx.amount, token := tx.token,
                          challenged := tx.challenged,
                          challenge_status := some "valid",
                          challenge_stake := tx.challenge_stake,
                          challenge_reason := tx.challenge_reason,
                          challenge_resolved_at := some ra }, ?_, Or.inl rfl⟩
                simp [htk]
              · intro t
                rfl
            · simp only [resolve_challenge, had, if_pos hoc, hfx, if_neg hpend,
                         if_pos hv, if_neg hstake]
              rw [findTxn_updateTxn]
              · rw [hfx]
                refine ⟨{ buyer_id := tx.buyer_id, seller_id := tx.seller_id,
                          amount := tx.amount, token := tx.token,
                          challenged := tx.challenged,
                          challenge_status := some "valid",
                          challenge_stake := tx.challenge_stake,
                          challenge_reason := tx.challenge_reason,
                          challenge_resolved_at := some ra }, ?_, Or.inl rfl⟩
                simp [htk]
              · intro t
                rfl
          · simp only [resolve_challenge, had, if_pos hoc, hfx, if_neg hpend, if_neg hv]
            rw [findTxn_updateTxn]
            · rw [hfx]
              refine ⟨{ buyer_id := tx.buyer_id, seller_id := tx.seller_id,
                        amount := tx.amount, token := tx.token,
                        challenged := tx.challenged,
                        challenge_status := some "invalid",
                        challenge_stake := tx.challenge_stake,
                        challenge_reason := tx.challenge_reason,
                        challenge_resolved_at := some ra }, ?_, Or.inr rfl⟩
              simp [htk]
            · intro t
              rfl
/-- C10 fixture: buyer `B` and a settled transaction for token `TX` already
challenged and pending. -/
def c10Store : Store :=
  { users := [{ user_id := "B", api_key_hash := "hb", balance := 50, escrow_balance := 0,
                total_earned := 0, reputation := 0 },
              { user_id := "S", api_key_hash := "hs", balance := 0, escrow_balance := 0,
                total_earned := 10, reputation := 1 }],
    tokens := [],
    transactions := [{ buyer_id := "B", seller_id := "S", amount := 10, token := "TX",
                       challenged := true, challenge_status := some "pending",
                       challenge_stake := 1, challenge_reason := none,
                       challenge_resolved_at := none }] }

/-- C10: the challenge lifecycle is at-most-once per settled transaction.
(1) The owning buyer's `open_challenge` on an already-challenged transaction
is a 400 with no mutation; (2) every failing `open_challenge` leaves the
store untouched, so the stake is deducted only after all checks pass;
(3) a successful `open_challenge` marks the transaction challenged+pending,
(4) after which every further `open_challenge` on it fails with no mutation
— the stake is deducted at most once per transaction; (5) every failing
`resolve_challenge` leaves the store untouched; (6) `resolve_challenge`
refuses unless the status is exactly `pending`; (7) a successful resolution
leaves the status at `valid` or `invalid`, so by (6) the transaction moves
`pending → valid|invalid` at most once. -/
theorem c10_challenge_lifecycle_at_most_once (s : Store) :
    (∀ kh bid tok r tx, kh ≠ "" → auth_user_id s kh = .ok bid →
      findTxn s.transactions tok = some tx → tx.buyer_id = bid →
      tx.challenged = true →
      open_challenge s (some kh) tok r = (s, .err 400 "Already challenged")) ∧
    (∀ k tok r c d, (open_challenge s k tok r).2 = .err c d →
      (open_challenge s k tok r).1 = s) ∧
    (∀ k tok r b, (open_challenge s k tok r).2 = .ok b →
      ∃ tx', findTxn (open_challenge s k tok r).1.transactions tok = some tx' ∧
        tx'.challenged = true ∧ tx'.challenge_status = some "pending") ∧
    (∀ tok tx, findTxn s.transactions tok = some tx → tx.challenged = true →
      ∀ k r, ∃ c d, open_challenge s k tok r = (s, .err c d)) ∧
    (∀ ak ek tok oc ra c d, (resolve_challenge s ak ek tok oc ra).2 = .err c d →
      (resolve_challenge s ak ek tok oc ra).1 = s) ∧
    (∀ tok tx, findTxn s.transactions tok = some tx →
      tx.challenge_status ≠ some "pending" →
      ∀ ak ek oc ra, ∃ c d, resolve_challenge s ak ek tok oc ra = (s, .err c d)) ∧
    (∀ ak ek tok oc ra b, (resolve_challenge s ak ek tok oc ra).2 = .ok b →
      ∃ tx', findTxn (resolve_challenge s ak ek tok oc ra).1.transactions tok =
        some tx' ∧
        (tx'.challenge_status = some "valid" ∨
          tx'.challenge_status = some "invalid")) :=
  ⟨fun kh bid tok r tx hk ha hf ho hc =>
      open_challenge_already_challenged s kh bid tok r tx hk ha hf ho hc,
   fun k tok r c d h => open_challenge_err_frame s k tok r c d h,
   fun k tok r b h => open_challenge_success_marks s k tok r b h,
   fun tok tx hf hc k r => open_challenge_errs_when_challenged s tok tx hf hc k r,
   fun ak ek tok oc ra c d h => resolve_challenge_err_frame s ak ek tok oc ra c d h,
   fun tok tx hf hnp ak ek oc ra =>
      resolve_challenge_not_pending_errs s tok tx hf hnp ak ek oc ra,
   fun ak ek tok oc ra b h => resolve_challenge_success_resolves s ak ek tok oc ra b h⟩

/-- Witness for C10 at `c10Store`: re-challenging the already-challenged
transaction `TX` is a 400 that returns the store unchanged. -/
theorem c10_challenge_lifecycle_at_most_once_witness :
    open_challenge c10Store (some "hb") "TX" none =
      (c10Store, .err 400 "Already challenged") :=
  (c10_challenge_lifecycle_at_most_once c10Store).1 "hb" "B" "TX" none
    { buyer_id := "B", seller_id := "S", amount := 10, token := "TX",
      challenged := true, challenge_status := some "pending",
      challenge_stake := 1, challenge_reason := none,
      challenge_resolved_at := none }
    (by decide) (by decide) (by decide) (by decide) (by decide)
/-! ## C3 -/

theorem mem_updateUser {users : List User} {uid : String} {f : User → User} {u : User}
    (h : u ∈ updateUser users uid f) :
    ∃ v ∈ users, u = if v.user_id == uid then f v else v := by
  unfold updateUser at h
  rcases List.mem_map.mp h with ⟨v, hv, he⟩
  exact ⟨v, hv, he.symm⟩

/-- `request_access` preserves, for every user, the conserved quantity
`balance + escrow + ledger sum`: the mint only moves `COST` from balance
into escrow. -/
theorem request_access_conserves (s : Store) (k : Option String) (sid tk B : String) :
    conservedQty (request_access s k sid tk).1 B = conservedQty s B := by
  rcases hrv : require_value k "x-api-key" with key' | ⟨c0, d0⟩
  case err => simp [request_access, hrv]
  case ok =>
    rcases hau : auth_user_id s key' with bid | ⟨c1, d1⟩
    case err => simp [request_access, hrv, hau]
    case ok =>
      rcases hfu : findUser s.users bid with _ | buyer
      case none => simp [request_access, hrv, hau, hfu]
      case some =>
        by_cases hbal : buyer.balance < COST
        · simp [request_access, hrv, hau, hfu, if_pos hbal]
        · simp only [request_access, hrv, hau, hfu, if_neg hbal]
          dsimp only [conservedQty, userBalance, userEscrow, ledgerSum]
          rw [findUser_update_lock]
          by_cases hB : B = bid
          · subst hB
            rw [hfu]
            have hid := find?_user_id_eq hfu
            simp [hid]
          · cases hfu2 : findUser s.users B with
            | none => simp
            | some v =>
              have hid2 := find?_user_id_eq hfu2
              simp [hid2, hB]

/-- A successful mint writes a non-negative balance (`balance ≥ COST` was
checked) and adds to a non-negative escrow, so no field goes negative. -/
theorem request_access_nonneg (s : Store) (hN : NonNegStore s) (k : Option String)
    (sid tk : String) : NonNegStore (request_access s k sid tk).1 := by
  rcases hrv : require_value k "x-api-key" with key' | ⟨c0, d0⟩
  case err => simpa [request_access, hrv] using hN
  case ok =>
    rcases hau : auth_user_id s key' with bid | ⟨c1, d1⟩
    case err => simpa [request_access, hrv, hau] using hN
    case ok =>
      rcases hfu : findUser s.users bid with _ | buyer
      case none => simpa [request_access, hrv, hau, hfu] using hN
      case some =>
        by_cases hbal : buyer.balance < COST
        · simpa [request_access, hrv, hau, hfu, if_pos hbal] using hN
        · simp only [request_access, hrv, hau, hfu, if_neg hbal]
          intro u hu
          rcases mem_updateUser hu with ⟨v, hv, he⟩
          obtain ⟨hv1, hv2, hv3, hv4⟩ := hN v hv
          obtain ⟨hb1, hb2, hb3, hb4⟩ := hN buyer (List.mem_of_find?_eq_some hfu)
          by_cases hc : v.user_id == bid
          · rw [he, if_pos hc]
            simp only [COST] at hbal hb2
            exact ⟨show (0:Int) ≤ buyer.balance - 10 by omega,
                   show (0:Int) ≤ buyer.escrow_balance + 10 by omega,
                   hv3, hv4⟩
          · rw [he, if_neg hc]
            exact ⟨hv1, hv2, hv3, hv4⟩
theorem balance_read_after_payout (users : List User) (uid B : String) (E R : Int) :
    ((findUser (updateUser users uid
        (fun u => { u with total_earned := E, reputation := R })) B).map
      User.balance).getD 0 = ((findUser users B).map User.balance).getD 0 :=
  read_update_preserved users uid B _ _ (fun _ => rfl) (fun _ => rfl)

theorem balance_read_after_escrow (users : List User) (uid B : String) (E : Int) :
    ((findUser (updateUser users uid
        (fun u => { u with escrow_balance := E })) B).map
      User.balance).getD 0 = ((findUser users B).map User.balance).getD 0 :=
  read_update_preserved users uid B _ _ (fun _ => rfl) (fun _ => rfl)

theorem escrow_read_after_payout (users : List User) (uid B : String) (E R : Int) :
    ((findUser (updateUser users uid
        (fun u => { u with total_earned := E, reputation := R })) B).map
      User.escrow_balance).getD 0 =
      ((findUser users B).map User.escrow_balance).getD 0 :=
  read_update_preserved users uid B _ _ (fun _ => rfl) (fun _ => rfl)

/-- Escrow backing specialised to the buyer of one live token: the buyer's
escrow covers at least this token's `COST`. -/
theorem escrow_ge_of_backed (s : Store) (hB : EscrowBacked s) {T : String}
    {row : Token} (h : findToken s.tokens T = some row) :
    COST ≤ userEscrow s row.user_id := by
  have hmem : row ∈ s.tokens := List.mem_of_find?_eq_some h
  have hback := hB row hmem
  have hcount : 1 ≤ ((s.tokens.filter (fun t => t.user_id == row.user_id)).length : Int) := by
    have hmf : row ∈ s.tokens.filter (fun t => t.user_id == row.user_id) :=
      List.mem_filter.mpr ⟨hmem, by simp⟩
    have := List.length_pos.mpr (List.ne_nil_of_mem hmf)
    exact_mod_cast this
  unfold escrowHeld at hback
  have hCnn : (0 : Int) ≤ COST := by decide
  calc COST = COST * 1 := by ring
    _ ≤ COST * ((s.tokens.filter (fun t => t.user_id == row.user_id)).length : Int) :=
        mul_le_mul_of_nonneg_left hcount hCnn
    _ ≤ userEscrow s row.user_id := hback
/-- `verify_token` preserves, for every user, the conserved quantity
`balance + escrow + ledger sum`, given escrow backing: settlement removes
exactly `COST` from the buyer's escrow and appends exactly one `COST`
ledger row for that buyer. -/
theorem verify_token_conserves (s : Store) (hB : EscrowBacked s) (T : String)
    (k : Option String) (B : String) :
    conservedQty (verify_token s T k).1 B = conservedQty s B := by
  rcases hrv : require_value k "x-seller-api-key" with key' | ⟨c0, d0⟩
  case err => simp [verify_token, hrv]
  case ok =>
    rcases hau : auth_user_id s key' with sid | ⟨c1, d1⟩
    case err => simp [verify_token, hrv, hau]
    case ok =>
      rcases hft : findToken s.tokens T with _ | row
      case none => simp [verify_token, hrv, hau, hft]
      case some =>
        by_cases hmis : sid ≠ row.seller_id
        · simp only [verify_token, hrv, hau, hft, if_pos hmis]
        · have hnempty := filter_length_ne_zero_of_findToken hft
          have hmis' : sid = row.seller_id := not_ne_iff.mp hmis
          have hauth' : auth_user_id s key' = .ok row.seller_id := by
            rw [← hmis']
            exact hau
          have hge := escrow_ge_of_backed s hB hft
          rcases hfub : findUser s.users row.user_id with _ | ubuyer
          · exfalso
            rw [userEscrow, hfub] at hge
            simp [COST] at hge
          · have hgeb : COST ≤ ubuyer.escrow_balance := by
              rwa [userEscrow, hfub] at hge
            simp only [verify_token, hrv, hau, hft, if_neg hmis, if_neg hnempty]
            split
            · rename_i heq
              rw [findUser_update_escrow] at heq
              rcases findUser_isSome_of_mem (auth_ok_mem hauth') with ⟨v, hv⟩
              rw [hv] at heq
              simp at heq
            · rename_i seller heq
              dsimp only [conservedQty, userBalance, userEscrow, ledgerSum]
              rw [balance_read_after_payout, balance_read_after_escrow,
                  escrow_read_after_payout, findUser_update_escrow,
                  List.filter_append, List.map_append, List.sum_append]
              rw [hfub]
              by_cases hb : B = row.user_id
              · subst hb
                have hid := find?_user_id_eq hfub
                simp [hfub, hid, hgeb]
                ring
              · have hrowB : ¬ row.user_id = B := fun h => hb h.symm
                simp [hrowB]
                cases hfu2 : findUser s.users B with
                | none => simp
                | some v =>
                  have hid2 := find?_user_id_eq hfu2
                  simp [hid2, hb]
theorem findUser_mem {users : List User} {uid : String} {u : User}
    (h : findUser users uid = some u) : u ∈ users :=
  List.mem_of_find?_eq_some h

/-- `verify_token` keeps every integer field non-negative: the escrow
deduction saturates at 0 and the payout only adds. -/
theorem verify_token_nonneg (s : Store) (hN : NonNegStore s) (T : String)
    (k : Option String) : NonNegStore (verify_token s T k).1 := by
  rcases hrv : require_value k "x-seller-api-key" with key' | ⟨c0, d0⟩
  case err => simpa [verify_token, hrv] using hN
  case ok =>
    rcases hau : auth_user_id s key' with sid | ⟨c1, d1⟩
    case err => simpa [verify_token, hrv, hau] using hN
    case ok =>
      rcases hft : findToken s.tokens T with _ | row
      case none => simpa [verify_token, hrv, hau, hft] using hN
      case some =>
        by_cases hmis : sid ≠ row.seller_id
        · simpa only [verify_token, hrv, hau, hft, if_pos hmis] using hN
        · have hnempty := filter_length_ne_zero_of_findToken hft
          simp only [verify_token, hrv, hau, hft, if_neg hmis, if_neg hnempty]
          split
          · intro u hu
            rcases mem_updateUser hu with ⟨v, hv, he⟩
            obtain ⟨hv1, hv2, hv3, hv4⟩ := hN v hv
            by_cases hc : v.user_id == row.user_id
            · rw [he, if_pos hc]
              exact ⟨hv1, le_max_left 0 _, hv3, hv4⟩
            · rw [he, if_neg hc]
              exact ⟨hv1, hv2, hv3, hv4⟩
          · rename_i seller heq
            intro u hu
            rcases mem_updateUser hu with ⟨w, hw, he⟩
            rcases mem_updateUser hw with ⟨v, hv, he2⟩
            obtain ⟨hv1, hv2, hv3, hv4⟩ := hN v hv
            have hw1 : w.balance = v.balance ∧ 0 ≤ w.escrow_balance ∧
                w.total_earned = v.total_earned ∧ w.reputation = v.reputation := by
              rw [he2]
              by_cases hc : v.user_id == row.user_id
              · rw [if_pos hc]
                exact ⟨rfl, le_max_left 0 _, rfl, rfl⟩
              · rw [if_neg hc]
                exact ⟨rfl, hv2, rfl, rfl⟩
            rcases mem_updateUser (findUser_mem heq) with ⟨v2, hv2m, he3⟩
            obtain ⟨g1, g2, g3, g4⟩ := hN v2 hv2m
            have hsel : 0 ≤ seller.total_earned ∧ 0 ≤ seller.reputation := by
              rw [he3]
              by_cases hc : v2.user_id == row.user_id
              · rw [if_pos hc]
                exact ⟨g3, g4⟩
              · rw [if_neg hc]
                exact ⟨g3, g4⟩
            rw [he]
            by_cases hc : w.user_id == row.seller_id
            · rw [if_pos hc]
              refine ⟨?_, ?_, ?_, ?_⟩
              · show 0 ≤ w.balance
                rw [hw1.1]
                exact hv1
              · exact hw1.2.1
              · exact add_nonneg hsel.1 (by decide : (0:Int) ≤ COST)
              · exact add_nonneg hsel.2 (by decide : (0:Int) ≤ 1)
            · rw [if_neg hc]
              refine ⟨?_, hw1.2.1, ?_, ?_⟩
              · rw [hw1.1]
                exact hv1
              · rw [hw1.2.2.1]
                exact hv3
              · rw [hw1.2.2.2]
                exact hv4
/-- C3: conservation and non-negativity.  From any store satisfying escrow
backing and non-negativity, every `request_access` and every `verify_token`
preserves, for each user `B`, the quantity
`balance + escrow_balance + (sum of B's ledger amounts)`, and leaves every
integer field (`balance`, `escrow_balance`, `total_earned`, `reputation`)
non-negative. -/
theorem c3_conservation_and_nonneg (s : Store) (hB : EscrowBacked s)
    (hN : NonNegStore s) :
    (∀ k sid tk B, conservedQty (request_access s k sid tk).1 B = conservedQty s B) ∧
    (∀ k sid tk, NonNegStore (request_access s k sid tk).1) ∧
    (∀ T k B, conservedQty (verify_token s T k).1 B = conservedQty s B) ∧
    (∀ T k, NonNegStore (verify_token s T k).1) :=
  ⟨fun k sid tk B => request_access_conserves s k sid tk B,
   fun k sid tk => request_access_nonneg s hN k sid tk,
   fun T k B => verify_token_conserves s hB T k B,
   fun T k => verify_token_nonneg s hN T k⟩

/-- Witness for C3 at `c7Store` (which satisfies both invariants): settling
the live token preserves the buyer's conserved quantity. -/
theorem c3_conservation_and_nonneg_witness :
    conservedQty (verify_token c7Store "T" (some "hs")).1 "B" =
      conservedQty c7Store "B" :=
  (c3_conservation_and_nonneg c7Store
    (by unfold EscrowBacked; decide) (by unfold NonNegStore; decide)).2.2.1
    "T" (some "hs") "B"
/-! ## C4 -/

/-- Modelled from the spec: a token row as the Sweep service needs it
(spec §3 Token: `token_id`, `buyer_id`, `seller_id`, `amount`,
`expires_at`); absent from `src/`, whose tokens table has no expiry. -/
structure SToken where
  token_id : String
  buyer_id : String
  seller_id : String
  amount : Int
  expires_at : Int
deriving Repr, DecidableEq

/-- Modelled from the spec: a principal as Sweep touches it. -/
structure SUser where
  user_id : String
  balance : Int
  escrow_balance : Int
deriving Repr, DecidableEq

/-- Modelled from the spec: an append-only ledger row (spec §3). -/
structure SLedger where
  buyer_id : String
  seller_id : String
  amount : Int
  token_id : String
deriving Repr, DecidableEq

/-- Modelled from the spec: the store as the Sweep service sees it. -/
structure SweepStore where
  users : List SUser
  tokens : List SToken
  ledger : List SLedger
deriving Repr, DecidableEq

/-- Total amount a sweep batch refunds to one buyer. -/
def sweepRefund (expired : List SToken) (uid : String) : Int :=
  ((expired.filter (fun t => t.buyer_id == uid)).map SToken.amount).sum

/-- Reading a swept-store balance: first matching row, 0 when absent. -/
def sBalance (s : SweepStore) (uid : String) : Int :=
  ((s.users.find? (fun u => u.user_id == uid)).map SUser.balance).getD 0

/-- Reading a swept-store escrow: first matching row, 0 when absent. -/
def sEscrow (s : SweepStore) (uid : String) : Int :=
  ((s.users.find? (fun u => u.user_id == uid)).map SUser.escrow_balance).getD 0

/-- Modelled from the spec: `POST /sweep_expired`.  The repository's stress
tests call this endpoint on the deployed bridge, but no handler for it
exists under `src/` (C9 proves the `src/` bridge stores no expiry at all),
so it is modelled from spec §4.A `TX_SWEEP` and §4.F Sweep Service: after
the admin-key check, in one transaction select up to `limit` token rows
with `expires_at ≤ now`, delete each selected row and refund its buyer
(escrow decreases by the token amount, balance increases by it — `SWEPT
(escrow refunded; no ledger row)`), and return the count reclaimed. -/
def sweep_expired (s : SweepStore) (x_admin_key env_admin_key : Option String)
    (now : Int) (limit : Nat) : SweepStore × HResult Nat :=
  match require_admin x_admin_key env_admin_key with
  | .err c d => (s, .err c d)
  | .ok _ =>
    let expired := (s.tokens.filter (fun t => t.expires_at ≤ now)).take limit
    let tokens' := s.tokens.filter
      (fun t => !(expired.any (fun e => e.token_id == t.token_id)))
    let users' := s.users.map (fun u =>
      { u with balance := u.balance + sweepRefund expired u.user_id,
               escrow_balance := u.escrow_balance - sweepRefund expired u.user_id })
    ({ s with tokens := tokens', users := users' }, .ok expired.length)
theorem sfind_refund_map (users : List SUser) (uid : String) (expired : List SToken) :
    (users.map (fun u =>
      { u with balance := u.balance + sweepRefund expired u.user_id,
               escrow_balance := u.escrow_balance -
                 sweepRefund expired u.user_id })).find?
        (fun v => v.user_id == uid) =
      (users.find? (fun v => v.user_id == uid)).map (fun u =>
        { u with balance := u.balance + sweepRefund expired u.user_id,
                 escrow_balance := u.escrow_balance -
                   sweepRefund expired u.user_id }) := by
  rw [List.find?_map]
  have hp : ((fun v : SUser => v.user_id == uid) ∘ (fun u : SUser =>
      { u with balance := u.balance + sweepRefund expired u.user_id,
               escrow_balance := u.escrow_balance -
                 sweepRefund expired u.user_id })) =
      (fun v : SUser => v.user_id == uid) := by
    funext v
    rfl
  rw [hp]

/-- C4 (modelled from the spec — the sweep endpoint is absent from `src/`):
a `POST /sweep_expired` with the correct admin key succeeds and returns the
count of expired tokens; it deletes exactly the token rows with
`expires_at ≤ now` (all of them when the batch `limit` covers them);
the ledger is untouched; each existing buyer's escrow drops, and balance
rises, by exactly the total amount of that buyer's swept tokens; and a
second sweep with no expiries in between returns 0 and changes nothing. -/
theorem c4_sweep_reclaims_expired_escrow (s : SweepStore) (k : String) (now : Int)
    (limit limit2 : Nat) (hk : k ≠ "")
    (hnodup : (s.tokens.map SToken.token_id).Nodup)
    (hlim : (s.tokens.filter (fun t => t.expires_at ≤ now)).length ≤ limit) :
    (sweep_expired s (some k) (some k) now limit).2 =
      .ok (s.tokens.filter (fun t => t.expires_at ≤ now)).length ∧
    (sweep_expired s (some k) (some k) now limit).1.tokens =
      s.tokens.filter (fun t => !(t.expires_at ≤ now)) ∧
    (sweep_expired s (some k) (some k) now limit).1.ledger = s.ledger ∧
    (∀ uid u, s.users.find? (fun v => v.user_id == uid) = some u →
      sBalance (sweep_expired s (some k) (some k) now limit).1 uid =
        u.balance + sweepRefund (s.tokens.filter (fun t => t.expires_at ≤ now)) uid ∧
      sEscrow (sweep_expired s (some k) (some k) now limit).1 uid =
        u.escrow_balance -
          sweepRefund (s.tokens.filter (fun t => t.expires_at ≤ now)) uid) ∧
    sweep_expired (sweep_expired s (some k) (some k) now limit).1
        (some k) (some k) now limit2 =
      ((sweep_expired s (some k) (some k) now limit).1, .ok 0) := by
  have hadm : require_admin (some k) (some k) = .ok () := by
    simp [require_admin, require_value, hk]
  have htake : (s.tokens.filter (fun t => t.expires_at ≤ now)).take limit =
      s.tokens.filter (fun t => t.expires_at ≤ now) := List.take_of_length_le hlim
  have hinj := List.inj_on_of_nodup_map hnodup
  have hany : ∀ t ∈ s.tokens,
      ((s.tokens.filter (fun t => t.expires_at ≤ now)).take limit).any
        (fun e => e.token_id == t.token_id) = decide (t.expires_at ≤ now) := by
    intro t ht
    rw [htake]
    by_cases hP : t.expires_at ≤ now
    · have hmf : t ∈ s.tokens.filter (fun t => t.expires_at ≤ now) :=
        List.mem_filter.mpr ⟨ht, by simp [hP]⟩
      have hd : decide (t.expires_at ≤ now) = true := by simp [hP]
      rw [hd, List.any_eq_true]
      exact ⟨t, hmf, by simp⟩
    · have hd : decide (t.expires_at ≤ now) = false := by simp [hP]
      rw [hd, List.any_eq_false]
      intro e he hbeq
      have heq : e.token_id = t.token_id := by simpa using hbeq
      have hem : e ∈ s.tokens := (List.mem_filter.mp he).1
      have hPe : e.expires_at ≤ now := by
        have := (List.mem_filter.mp he).2
        simpa using this
      have hET : e = t := hinj hem ht heq
      rw [hET] at hPe
      exact hP hPe
  have htok : s.tokens.filter (fun t =>
        !(((s.tokens.filter (fun t => t.expires_at ≤ now)).take limit).any
          (fun e => e.token_id == t.token_id))) =
      s.tokens.filter (fun t => !(t.expires_at ≤ now)) := by
    apply List.filter_congr
    intro t ht
    rw [hany t ht]
  refine ⟨?_, ?_, ?_, ?_, ?_⟩
  · simp only [sweep_expired, hadm]
    rw [htake]
  · simp only [sweep_expired, hadm]
    exact htok
  · simp only [sweep_expired, hadm]
  · intro uid u hu
    have hid : u.user_id = uid := by simpa using List.find?_some hu
    simp only [sweep_expired, hadm, sBalance, sEscrow]
    rw [htake, sfind_refund_map, hu]
    constructor <;> simp [hid]
  · have htok2 : (s.tokens.filter (fun t =>
        !(((s.tokens.filter (fun t => t.expires_at ≤ now)).take limit).any
          (fun e => e.token_id == t.token_id)))).filter
        (fun t => t.expires_at ≤ now) = [] := by
      rw [htok, List.filter_filter]
      have hpt : ∀ t ∈ s.tokens,
          (decide (t.expires_at ≤ now) && !(t.expires_at ≤ now)) = false := by
        intro t ht
        by_cases hP : t.expires_at ≤ now <;> simp [hP]
      calc s.tokens.filter
            (fun t => decide (t.expires_at ≤ now) && !(t.expires_at ≤ now))
          = s.tokens.filter (fun _ => false) := List.filter_congr hpt
        _ = [] := List.filter_false s.tokens
    simp only [sweep_expired, hadm]
    rw [htok2]
    simp [sweepRefund]
/-- C4 fixture: buyer `B` (balance 90, escrow 10) with one token of amount
10 expired long ago (expires_at 100 < now 200). -/
def c4Store : SweepStore :=
  { users := [{ user_id := "B", balance := 90, escrow_balance := 10 }],
    tokens := [{ token_id := "T1", buyer_id := "B", seller_id := "S",
                 amount := 10, expires_at := 100 }],
    ledger := [] }

/-- Witness for C4 at `c4Store`: the sweep reports the expired count and a
second sweep returns 0 with the store unchanged. -/
theorem c4_sweep_reclaims_expired_escrow_witness :
    (sweep_expired c4Store (some "adm") (some "adm") 200 500).2 =
      .ok (c4Store.tokens.filter (fun t => t.expires_at ≤ 200)).length ∧
    sweep_expired (sweep_expired c4Store (some "adm") (some "adm") 200 500).1
        (some "adm") (some "adm") 200 500 =
      ((sweep_expired c4Store (some "adm") (some "adm") 200 500).1, .ok 0) :=
  ⟨(c4_sweep_reclaims_expired_escrow c4Store "adm" 200 500 500
      (by decide) (by decide) (by decide)).1,
   (c4_sweep_reclaims_expired_escrow c4Store "adm" 200 500 500
      (by decide) (by decide) (by decide)).2.2.2.2⟩
end Nexus
